import Mathlib

/-!
# Verification of `sql2csv` (Go) against its specification

Shallow embedding of the parts of the repository the claims concern:

* `pkg/exporter/exporter.go` — `TableExporter.Export`, `formatValue`;
* the SQL dump parser (`SQLDumpParser`): `ParseToSQLite`, `convertDataTypes`,
  `cleanupCreateTable`, `convertSyntax`, `convertConstraint`,
  `shouldSkipStatement`, `insertCopyData`, `parseCopyLine`;
* `cmd/sql2csv/main.go` — the concurrent export orchestration.

Strings are embedded as `List Char`; Go's `regexp` is embedded only at the
specific literal patterns the source compiles, as executable scanners with
Go's leftmost-match semantics.
-/

namespace Sql2Csv

/-- Strings of the Go program, embedded as lists of characters. -/
abbrev Str := List Char

/-- Character class of Go's `\s`-ish whitespace as used by `strings.Fields`
and `strings.TrimSpace` (the dump files are ASCII). -/
def isSpaceChar (c : Char) : Bool := c = ' ' || c = '\t' || c = '\n' || c = '\r'

/-- Character class of Go's regexp `\w` (ASCII word character). -/
def isWordChar (c : Char) : Bool := c.isAlphanum || c = '_'

/-- `strings.HasPrefix s p`. -/
def hasPrefixStr : Str → Str → Bool
  | _, [] => true
  | [], _ :: _ => false
  | c :: s, p :: ps => c = p && hasPrefixStr s ps

/-- Match the literal `pat` at the head of `s`, returning the remainder. -/
def litM : Str → Str → Option Str
  | [], s => some s
  | _ :: _, [] => none
  | p :: ps, c :: cs => if c = p then litM ps cs else none

/-- Leftmost-first scan: try `tryAt` at every suffix, leftmost success wins.
This is Go `regexp`'s match-position rule for the literal-based patterns
compiled by this program. -/
def scanFirst {α : Type} (tryAt : Str → Option α) : Str → Option α
  | [] => tryAt []
  | c :: cs =>
    match tryAt (c :: cs) with
    | some r => some r
    | none => scanFirst tryAt cs

/-- `strings.Contains s pat`. -/
def containsStr (s pat : Str) : Bool :=
  (scanFirst (litM pat) s).isSome

/-- `strings.TrimSpace` (ASCII whitespace). -/
def trimSpace (s : Str) : Str :=
  (s.dropWhile isSpaceChar).reverse.dropWhile isSpaceChar |>.reverse

/-- Worker for `fields`: `acc` is the current word, reversed. -/
def fieldsGo : Str → Str → List Str
  | acc, [] => if acc = [] then [] else [acc.reverse]
  | acc, c :: cs =>
    if isSpaceChar c then
      if acc = [] then fieldsGo [] cs else acc.reverse :: fieldsGo [] cs
    else fieldsGo (c :: acc) cs

/-- `strings.Fields`: split around runs of whitespace. -/
def fields (s : Str) : List Str := fieldsGo [] s

/-! ## Table exporter (`pkg/exporter/exporter.go`) -/

/-- A value scanned from one column of a result row: SQL NULL, a byte
sequence, or any other driver value carried together with its default
`fmt.Sprintf` textual representation. -/
inductive SqlValue where
  | null : SqlValue
  | bytes (s : Str) : SqlValue
  | other (r : Str) : SqlValue
deriving DecidableEq

/-- Embeds `formatValue`: `nil` renders as the empty string, `[]byte`
decodes as text, every other value uses its default textual representation. -/
def formatValue : SqlValue → Str
  | .null => []
  | .bytes s => s
  | .other r => r

/-- `const batchSize = 1000` in `exporter.go`. -/
def batchSize : Nat := 1000

/-- Embeds the row loop of `TableExporter.Export`: each scanned row is
formatted and appended to `batch`; when the batch fills (`count >= batchSize`)
it is flushed to the CSV writer, and a non-empty remainder is flushed after
the cursor is exhausted. Returns the data records in the order written. -/
def exportLoop : List (List SqlValue) → List (List Str) → Nat → List (List Str)
  | [], batch, _ => if batch.length > 0 then batch else []
  | r :: rs, batch, count =>
    let record := r.map formatValue
    let batch' := batch ++ [record]
    let count' := count + 1
    if count' ≥ batchSize then batch' ++ exportLoop rs [] 0
    else exportLoop rs batch' count'

/-- Embeds the success path of `TableExporter.Export`: one header record equal
to `columns`, then the batched data records. -/
def exportRecords (columns : List Str) (rows : List (List SqlValue)) : List (List Str) :=
  columns :: exportLoop rows [] 0

theorem exportLoop_eq (rs : List (List SqlValue)) :
    ∀ batch count, exportLoop rs batch count = batch ++ rs.map (List.map formatValue) := by
  induction rs with
  | nil =>
    intro batch count
    cases batch <;> simp [exportLoop]
  | cons r rs ih =>
    intro batch count
    simp only [exportLoop]
    split
    · rw [ih]
      simp
    · rw [ih]
      simp

/-- C1: `Export` writes exactly one header record equal to the column list,
followed by one record per cursor row in order; NULL renders as the empty
string, byte sequences decode as text, other values use their default textual
representation; the batched flushing neither drops, duplicates nor reorders
records (a table with 3 rows yields exactly 4 records). -/
theorem export_writes_header_then_rows_in_order
    (columns : List Str) (rows : List (List SqlValue)) :
    exportRecords columns rows = columns :: rows.map (List.map formatValue)
    ∧ (exportRecords columns rows).length = 1 + rows.length
    ∧ formatValue .null = []
    ∧ (∀ s, formatValue (.bytes s) = s)
    ∧ (∀ r, formatValue (.other r) = r) := by
  refine ⟨?_, ?_, rfl, fun _ => rfl, fun _ => rfl⟩
  · unfold exportRecords
    rw [exportLoop_eq]
    simp
  · unfold exportRecords
    rw [exportLoop_eq]
    simp [Nat.add_comm]

/-! ## COPY data rows (`parseCopyLine`, `insertCopyData`) -/

/-- A value produced by `parseCopyLine` for one tab-separated field and handed
to the prepared INSERT statement: Go `nil`, a Go `bool`, or the raw field text. -/
inductive CopyVal where
  | cnull : CopyVal
  | cbool (b : Bool) : CopyVal
  | ctext (s : Str) : CopyVal
deriving DecidableEq

/-- `strings.Split line "\t"`: split at every tab, keeping empty fields
(the empty line yields one empty field). -/
def splitTab : Str → List Str
  | [] => [[]]
  | c :: cs =>
    let r := splitTab cs
    if c = '\t' then [] :: r
    else
      match r with
      | [] => [[c]]
      | f :: rest => (c :: f) :: rest

/-- Embeds the `switch field` of `parseCopyLine`: `\N` becomes NULL, `t`
becomes `true`, `f` becomes `false`, anything else stays raw text. -/
def copyField (f : Str) : CopyVal :=
  if f = ['\\', 'N'] then .cnull
  else if f = ['t'] then .cbool true
  else if f = ['f'] then .cbool false
  else .ctext f

/-- Embeds `parseCopyLine`: split the line on tab characters and convert
each field. -/
def parseCopyLine (line : Str) : List CopyVal :=
  (splitTab line).map copyField

/-- Transaction-level events issued by `insertCopyData` against the staging
database. -/
inductive TxEvent where
  | txBegin : TxEvent
  | exec (row : List CopyVal) : TxEvent
  | commit : TxEvent
  | rollback : TxEvent
deriving DecidableEq

/-- The typed errors `insertCopyData` can return (each wraps the collaborator
error it came from). -/
inductive InsertErr where
  | beginFailed : InsertErr
  | getColumnsFailed : InsertErr
  | prepareFailed : InsertErr
  | commitFailed : InsertErr
deriving DecidableEq

/-- Outcomes of the database collaborators used by `insertCopyData`:
`db.Begin`, `GetColumns` (the staging table's column list, if the table
exists), `tx.Prepare`, per-row `stmt.Exec`, and `tx.Commit`. -/
structure TxEnv where
  beginOk : Bool
  columnsRes : Option (List Str)
  prepareOk : Bool
  execOk : List CopyVal → Bool
  commitOk : Bool

/-- Result of one `insertCopyData` call: the returned error (if any), the rows
that are actually present in the staging table afterwards, and the
transaction trace. -/
structure InsertOutcome where
  result : Option InsertErr
  committed : List (List CopyVal)
  events : List TxEvent

/-- Embeds `insertCopyData`: empty batches return immediately; otherwise one
transaction is begun, every captured line is parsed, lines whose field count
differs from the column count are skipped without an exec, each remaining row
is executed (failures only logged), and the transaction is committed. A commit
failure (or the deferred rollback on an earlier error) leaves no rows behind. -/
def insertCopyData (env : TxEnv) (data : List Str) : InsertOutcome :=
  if data.isEmpty then ⟨none, [], []⟩
  else if env.beginOk = false then ⟨some .beginFailed, [], []⟩
  else
    match env.columnsRes with
    | none => ⟨some .getColumnsFailed, [], [.txBegin, .rollback]⟩
    | some columns =>
      if env.prepareOk = false then ⟨some .prepareFailed, [], [.txBegin, .rollback]⟩
      else
        let attempted := (data.map parseCopyLine).filter
          (fun vs => vs.length == columns.length)
        let inserted := attempted.filter (fun vs => env.execOk vs)
        if env.commitOk then
          ⟨none, inserted, .txBegin :: (attempted.map TxEvent.exec ++ [.commit])⟩
        else
          ⟨some .commitFailed, [], .txBegin :: (attempted.map TxEvent.exec ++ [.rollback])⟩

/-- C10: `parseCopyLine` splits on tabs and maps `\N` to NULL, `t` to boolean
true, `f` to boolean false and keeps every other field as raw text; in
consequence a text column whose stored value is exactly `t` reaches the
staging store as a boolean, not as the original one-character text. -/
theorem parse_copy_line_field_mapping :
    (∀ line, parseCopyLine line =
      (splitTab line).map (fun f =>
        if f = ['\\', 'N'] then CopyVal.cnull
        else if f = ['t'] then CopyVal.cbool true
        else if f = ['f'] then CopyVal.cbool false
        else CopyVal.ctext f))
    ∧ parseCopyLine ['a', '\t', 't', '\t', 'f', '\t', '\\', 'N']
        = [CopyVal.ctext ['a'], CopyVal.cbool true, CopyVal.cbool false, CopyVal.cnull]
    ∧ parseCopyLine ['t'] = [CopyVal.cbool true]
    ∧ parseCopyLine ['t'] ≠ [CopyVal.ctext ['t']]
    ∧ (insertCopyData ⟨true, some [['c']], true, fun _ => true, true⟩ [['t']]).committed
        = [[CopyVal.cbool true]] := by
  refine ⟨fun line => rfl, by decide, by decide, by decide, by decide⟩

theorem copy_attempted_filter (data : List Str) (columns : List Str) :
    ∀ vs ∈ (data.map parseCopyLine).filter (fun vs => vs.length == columns.length),
      vs.length = columns.length := by
  intro vs hvs
  have := List.of_mem_filter hvs
  simpa using this

/-- C4: for a COPY block against a staging table with column list `columns`,
assuming the transaction machinery itself succeeds: the rows executed are
exactly the parses of the captured lines whose field count equals the column
count (mismatched lines are skipped and absent); when every row insert
succeeds those rows are all present, in order; a per-row insert failure
removes only that row, the call still commits and returns no error; and the
whole block runs inside exactly one transaction (one begin, one commit). -/
theorem copy_block_partial_batch_tolerance
    (env : TxEnv) (data : List Str) (columns : List Str)
    (hcols : env.columnsRes = some columns)
    (hbegin : env.beginOk = true)
    (hprep : env.prepareOk = true)
    (hcommit : env.commitOk = true)
    (hne : data ≠ []) :
    (insertCopyData env data).committed
      = ((data.map parseCopyLine).filter
          (fun vs => vs.length == columns.length)).filter (fun vs => env.execOk vs)
    ∧ ((∀ vs, env.execOk vs = true) →
        (insertCopyData env data).committed
          = (data.map parseCopyLine).filter (fun vs => vs.length == columns.length))
    ∧ (∀ vs ∈ (insertCopyData env data).committed, vs.length = columns.length)
    ∧ (insertCopyData env data).result = none
    ∧ (insertCopyData env data).events
        = .txBegin :: (((data.map parseCopyLine).filter
            (fun vs => vs.length == columns.length)).map TxEvent.exec ++ [.commit])
    ∧ ((insertCopyData env data).events.count .txBegin = 1
        ∧ (insertCopyData env data).events.count .commit = 1) := by
  have hde : data.isEmpty = false := by
    cases data with
    | nil => exact absurd rfl hne
    | cons d ds => rfl
  have hout : insertCopyData env data =
      ⟨none,
       ((data.map parseCopyLine).filter
          (fun vs => vs.length == columns.length)).filter (fun vs => env.execOk vs),
       .txBegin :: (((data.map parseCopyLine).filter
          (fun vs => vs.length == columns.length)).map TxEvent.exec ++ [.commit])⟩ := by
    unfold insertCopyData
    rw [hde, hbegin, hcols, hprep, hcommit]
    rfl
  refine ⟨by rw [hout], ?_, ?_, by rw [hout], by rw [hout], ?_⟩
  · intro hall
    rw [hout]
    simp only
    exact List.filter_eq_self.mpr (fun a _ => hall a)
  · intro vs hvs
    rw [hout] at hvs
    simp only at hvs
    exact copy_attempted_filter data columns vs (List.mem_of_mem_filter hvs)
  · rw [hout]
    constructor
    · have h1 : (((data.map parseCopyLine).filter
          (fun vs => vs.length == columns.length)).map TxEvent.exec).count .txBegin = 0 := by
        rw [List.count_eq_zero]
        simp
      simp only [List.count_cons, List.count_append]
      rw [h1]
      decide
    · have h1 : (((data.map parseCopyLine).filter
          (fun vs => vs.length == columns.length)).map TxEvent.exec).count .commit = 0 := by
        rw [List.count_eq_zero]
        simp
      simp only [List.count_cons, List.count_append]
      rw [h1]
      decide

/-- Witness for `copy_block_partial_batch_tolerance`: a concrete block with one
well-formed row that inserts, one mismatched row, and one well-formed row
whose insert fails. -/
theorem copy_block_partial_batch_tolerance_witness :
    (let env : TxEnv :=
      ⟨true, some [['a'], ['b']], true, fun vs => !(vs == [.ctext ['3'], .ctext ['4']]), true⟩
     let data : List Str := [['1', '\t', '2'], ['x'], ['3', '\t', '4']]
     (insertCopyData env data).committed = [[.ctext ['1'], .ctext ['2']]]
     ∧ (insertCopyData env data).result = none) := by
  have h := copy_block_partial_batch_tolerance
    ⟨true, some [['a'], ['b']], true, fun vs => !(vs == [.ctext ['3'], .ctext ['4']]), true⟩
    [['1', '\t', '2'], ['x'], ['3', '\t', '4']]
    [['a'], ['b']] rfl rfl rfl rfl (by decide)
  refine ⟨?_, h.2.2.2.1⟩
  rw [h.1]
  decide

/-! ## Data-type conversion (`convertDataTypes`)

`convertDataTypes` compiles, for every entry `pg -> sqlite` of its
`conversions` map, the pattern `(?i)pg(\(\d+\))?` and applies
`ReplaceAllString` with the literal replacement `sqlite`.  The map is a Go
`map[string]string`, iterated with `range`, i.e. in an unspecified order. -/

/-- Case-insensitive literal match (Go regexp `(?i)` on a literal pattern),
returning the remainder on success. -/
def litCI : Str → Str → Option Str
  | [], s => some s
  | _ :: _, [] => none
  | p :: ps, c :: cs => if c.toLower = p.toLower then litCI ps cs else none

/-- The greedy optional suffix `(\(\d+\))?`: consume a parenthesized run of
one or more digits when present, otherwise consume nothing. -/
def optParenDigits (s : Str) : Str :=
  match s with
  | '(' :: rest =>
    (match rest.takeWhile Char.isDigit, rest.dropWhile Char.isDigit with
     | _ :: _, ')' :: tail => tail
     | _, _ => s)
  | _ => s

/-- `re.ReplaceAllString line rep` for the pattern `(?i)key(\(\d+\))?`:
replace every non-overlapping occurrence, leftmost first.  Each match consumes
at least one character, so `line.length` steps of fuel always suffice. -/
def applyRuleFuel (key rep : Str) : Nat → Str → Str
  | _, [] => []
  | 0, s => s
  | fuel + 1, c :: cs =>
    match litCI key (c :: cs) with
    | some rest => rep ++ applyRuleFuel key rep fuel (optParenDigits rest)
    | none => c :: applyRuleFuel key rep fuel cs

def applyRule (key rep line : Str) : Str := applyRuleFuel key rep line.length line

/-- The `conversions` map literal of `convertDataTypes`, in source order. -/
def conversions : List (Str × Str) :=
  [("SERIAL".toList, "INTEGER".toList),
   ("serial".toList, "INTEGER".toList),
   ("BIGSERIAL".toList, "INTEGER".toList),
   ("bigserial".toList, "INTEGER".toList),
   ("SMALLSERIAL".toList, "INTEGER".toList),
   ("smallserial".toList, "INTEGER".toList),
   ("timestamp without time zone".toList, "DATETIME".toList),
   ("timestamp with time zone".toList, "DATETIME".toList),
   ("boolean".toList, "BOOLEAN".toList),
   ("BOOLEAN".toList, "BOOLEAN".toList),
   ("character varying".toList, "VARCHAR".toList),
   ("varchar".toList, "VARCHAR".toList),
   ("bytea".toList, "BLOB".toList),
   ("double precision".toList, "REAL".toList),
   ("bigint".toList, "INTEGER".toList),
   ("int8".toList, "INTEGER".toList),
   ("smallint".toList, "INTEGER".toList),
   ("int2".toList, "INTEGER".toList),
   ("integer".toList, "INTEGER".toList),
   ("int4".toList, "INTEGER".toList),
   ("decimal".toList, "REAL".toList),
   ("numeric".toList, "REAL".toList),
   ("text".toList, "TEXT".toList),
   ("json".toList, "TEXT".toList),
   ("jsonb".toList, "TEXT".toList),
   ("date".toList, "DATE".toList)]

/-- `convertDataTypes` with the map iterated in the order `rules`: Go's
`range` over the map yields some permutation of `conversions`, and the body
applies each rule's `ReplaceAllString` to the running line. -/
def convertDataTypesWith (rules : List (Str × Str)) (line : Str) : Str :=
  rules.foldl (fun l r => applyRule r.1 r.2 l) line

/-- `conversions` with the `bigserial` entries first: another possible
iteration order of the same Go map. -/
def conversionsBigserialFirst : List (Str × Str) :=
  [("BIGSERIAL".toList, "INTEGER".toList),
   ("bigserial".toList, "INTEGER".toList)]
  ++ (conversions.filter (fun r => !(r.1 == "BIGSERIAL".toList || r.1 == "bigserial".toList)))

/-- C2 (refuting the order-insensitivity): the two iteration orders are
permutations of the same rule map, yet on the line `BIGSERIAL` the
source-literal order (where the `SERIAL` rule fires first and its output
`BIGINTEGER` re-triggers the `bigint` rule) produces `INTEGEREGER`, while the
`bigserial`-first order produces `INTEGER`.  The conversion is therefore not a
well-defined function of the line under Go's unspecified map order. -/
theorem convert_data_types_order_dependent :
    conversionsBigserialFirst.Perm conversions
    ∧ convertDataTypesWith conversions "BIGSERIAL".toList = "INTEGEREGER".toList
    ∧ convertDataTypesWith conversionsBigserialFirst "BIGSERIAL".toList = "INTEGER".toList
    ∧ convertDataTypesWith conversions "BIGSERIAL".toList
        ≠ convertDataTypesWith conversionsBigserialFirst "BIGSERIAL".toList := by
  refine ⟨by decide, by decide, by decide, by decide⟩

/-! ## Dump parser: syntax conversion, constraint rewriting, skip classifier -/

/-- `strings.HasSuffix s p`. -/
def hasSuffixStr (s p : Str) : Bool := hasPrefixStr s.reverse p.reverse

/-- `strings.TrimPrefix s p`. -/
def trimPrefixStr (s p : Str) : Str := if hasPrefixStr s p then s.drop p.length else s

/-- `strings.ReplaceAll s key rep`: replace every non-overlapping occurrence,
leftmost first.  Fueled by the string length (each occurrence of the non-empty
keys used here consumes at least one character). -/
def replaceAllFuel (key rep : Str) : Nat → Str → Str
  | _, [] => []
  | 0, s => s
  | fuel + 1, c :: cs =>
    match litM key (c :: cs) with
    | some rest => rep ++ replaceAllFuel key rep fuel rest
    | none => c :: replaceAllFuel key rep fuel cs

def replaceAllStr (s key rep : Str) : Str := replaceAllFuel key rep s.length s

/-- The regexp fragment `(.*?)\)` followed by a continuation: capture the
shortest run of non-newline characters up to a `)` whose remainder satisfies
the continuation (Go's leftmost-first preference for a lazy group). -/
def lazyThen {α : Type} (next : Str → Option α) : Str → Option (Str × α)
  | [] => none
  | c :: cs =>
    match (if c = ')' then (next cs).map (fun a => (([] : Str), a)) else none) with
    | some r => some r
    | none =>
      if c = '\n' then none
      else
        match lazyThen next cs with
        | some (u, a) => some (c :: u, a)
        | none => none

/-- Try the pattern `ADD CONSTRAINT \w+ PRIMARY KEY \((.*?)\)` at the head of
`s`, capturing the column list. -/
def pkTryAt (s : Str) : Option Str :=
  match litM "ADD CONSTRAINT ".toList s with
  | none => none
  | some r1 =>
    if (r1.takeWhile isWordChar).isEmpty then none
    else
      match litM " PRIMARY KEY (".toList (r1.dropWhile isWordChar) with
      | none => none
      | some r2 => (lazyThen (fun _ => some ()) r2).map (fun p => p.1)

/-- `regexp.FindStringSubmatch` for the PRIMARY KEY pattern: leftmost match. -/
def pkMatch (line : Str) : Option Str := scanFirst pkTryAt line

/-- Try `FOREIGN KEY \((.*?)\) REFERENCES (\w+)\((.*?)\)` at the head of `s`,
capturing (columns, referenced table, referenced columns). -/
def fkTryAt (s : Str) : Option (Str × Str × Str) :=
  match litM "FOREIGN KEY (".toList s with
  | none => none
  | some r1 =>
    (lazyThen (fun r2 =>
      match litM " REFERENCES ".toList r2 with
      | none => none
      | some r3 =>
        if (r3.takeWhile isWordChar).isEmpty then none
        else
          match r3.dropWhile isWordChar with
          | '(' :: r4 =>
            (lazyThen (fun _ => some ()) r4).map
              (fun p => (r3.takeWhile isWordChar, p.1))
          | _ => none) r1).map (fun p => (p.1, p.2))

def fkMatch (line : Str) : Option (Str × Str × Str) := scanFirst fkTryAt line

/-- Try `ADD CONSTRAINT (\w+) UNIQUE \((.*?)\)` at the head of `s`, capturing
(constraint name, column list). -/
def uqTryAt (s : Str) : Option (Str × Str) :=
  match litM "ADD CONSTRAINT ".toList s with
  | none => none
  | some r1 =>
    if (r1.takeWhile isWordChar).isEmpty then none
    else
      match litM " UNIQUE (".toList (r1.dropWhile isWordChar) with
      | none => none
      | some r2 =>
        (lazyThen (fun _ => some ()) r2).map (fun p => (r1.takeWhile isWordChar, p.1))

def uqMatch (line : Str) : Option (Str × Str) := scanFirst uqTryAt line

/-- Embeds `convertConstraint`: a PRIMARY KEY constraint becomes an idempotent
unique index `pk_<table>`, a FOREIGN KEY constraint becomes a non-unique index
`fk_<table>_<reftable>`, a UNIQUE constraint becomes a unique index named by
the constraint, anything else becomes the empty string.  The table name is
`strings.Fields(line)[2]` (the word after `ALTER TABLE`). -/
def convertConstraint (line : Str) : Str :=
  match (if containsStr line "PRIMARY KEY".toList then pkMatch line else none) with
  | some cols =>
    let tableName := (fields line).getD 2 []
    "CREATE UNIQUE INDEX IF NOT EXISTS pk_".toList ++ tableName ++ " ON ".toList
      ++ tableName ++ " (".toList ++ cols ++ ");".toList
  | none =>
    match (if containsStr line "FOREIGN KEY".toList then fkMatch line else none) with
    | some (cols, rtable, _) =>
      let tableName := (fields line).getD 2 []
      "CREATE INDEX IF NOT EXISTS fk_".toList ++ tableName ++ "_".toList ++ rtable
        ++ " ON ".toList ++ tableName ++ " (".toList ++ cols ++ ");".toList
    | none =>
      match (if containsStr line "UNIQUE".toList then uqMatch line else none) with
      | some (name, cols) =>
        let tableName := (fields line).getD 2 []
        "CREATE UNIQUE INDEX IF NOT EXISTS ".toList ++ name ++ " ON ".toList
          ++ tableName ++ " (".toList ++ cols ++ ");".toList
      | none => []

/-- Embeds `convertSyntax` (named `convertSyn` here): drop sequence-related
and ownership lines and `pg_catalog` references, rewrite `ADD CONSTRAINT`
lines through `convertConstraint`, pass everything else through. -/
def convertSyn (line : Str) : Str :=
  if containsStr line "CREATE SEQUENCE".toList || containsStr line "ALTER SEQUENCE".toList
      || containsStr line "START WITH".toList || containsStr line "SEQUENCE NAME".toList then
    []
  else if containsStr line "OWNER TO".toList then []
  else if containsStr line "pg_catalog.".toList then []
  else if containsStr line "ADD CONSTRAINT".toList then convertConstraint line
  else line

/-- Embeds `convertCreateTable` with the map-iteration order `rules` for
`convertDataTypes`: strip `public.` qualifications, then convert data types. -/
def convertCreateTable (rules : List (Str × Str)) (line : Str) : Str :=
  convertDataTypesWith rules (replaceAllStr line "public.".toList [])

/-- `strings.LastIndex line ","`. -/
def lastCommaIdx : Str → Option Nat
  | [] => none
  | c :: cs =>
    match lastCommaIdx cs with
    | some i => some (i + 1)
    | none => if c = ',' then some 0 else none

/-- Embeds `cleanupCreateTable`: if the line has a comma and a `)` occurs at
or after the last comma, remove that comma. -/
def cleanupCreateTable (line : Str) : Str :=
  match lastCommaIdx line with
  | none => line
  | some idx =>
    if containsStr (line.drop idx) [')'] then line.take idx ++ line.drop (idx + 1)
    else line

/-- The shapes of the regular expressions in `skipPatterns`: a `^`-anchored
literal, a plain substring, or two substrings separated by `.*` (which cannot
cross a newline). -/
inductive Pat where
  | anchored (p : Str) : Pat
  | sub (p : Str) : Pat
  | seqPat (p q : Str) : Pat

/-- Substring search for `q` that does not cross a newline (the `.*q` tail of
a `p.*q` pattern: `.` does not match a newline). -/
def containsNoNl (q : Str) : Str → Bool
  | [] => (litM q []).isSome
  | c :: cs =>
    if (litM q (c :: cs)).isSome then true
    else if c = '\n' then false
    else containsNoNl q cs

/-- `regexp.MatchString "p.*q" s`: some occurrence of `p` is followed, within
the same line, by an occurrence of `q`. -/
def seqMatch (p q : Str) : Str → Bool
  | [] =>
    (match litM p [] with
     | some rest => containsNoNl q rest
     | none => false)
  | c :: cs =>
    (match litM p (c :: cs) with
     | some rest => containsNoNl q rest
     | none => false)
    || seqMatch p q cs

/-- `regexp.MatchString pattern stmt` for the three pattern shapes used by
`shouldSkipStatement`. -/
def matchPat (s : Str) : Pat → Bool
  | .anchored p => hasPrefixStr s p
  | .sub p => containsStr s p
  | .seqPat p q => seqMatch p q s

/-- The `skipPatterns` list of `shouldSkipStatement`, in source order. -/
def skipPatterns : List Pat :=
  [.anchored "SET ".toList,
   .anchored "ALTER DATABASE".toList,
   .anchored "CREATE DATABASE".toList,
   .anchored "CREATE SCHEMA".toList,
   .anchored "CREATE EXTENSION".toList,
   .anchored "COMMENT ON".toList,
   .anchored "GRANT ".toList,
   .anchored "REVOKE ".toList,
   .sub "CREATE TRIGGER".toList,
   .sub "CREATE RULE".toList,
   .sub "CREATE POLICY".toList,
   .sub "SELECT pg_catalog".toList,
   .seqPat "ALTER TABLE".toList "OWNER TO".toList,
   .seqPat "ALTER TABLE".toList "ADD GENERATED".toList]

/-- Embeds `shouldSkipStatement`: first matching pattern wins. -/
def shouldSkipStatement (stmt : Str) : Bool :=
  skipPatterns.any (matchPat stmt)

/-! ## The `ParseToSQLite` line-processing loop -/

/-- The mutable loop state of `ParseToSQLite`, plus the externally visible
effects (statements handed to `db.Exec`, COPY batches handed to
`insertCopyData`, and logged warnings). -/
structure PState where
  inFunction : Bool
  inCopy : Bool
  inCreateTable : Bool
  currentStatement : Str
  copyData : List Str
  currentTable : Str
  executed : List Str
  copyBlocks : List (Str × List Str)
  warnings : List Str
deriving DecidableEq

def initialState : PState := ⟨false, false, false, [], [], [], [], [], []⟩

/-- The `CREATE TABLE` start handling of the loop body: on a table-definition
header turn create-table mode on and convert the line; state is the pair
(create-table flag, current line text). -/
def ctStart (rules : List (Str × Str)) (inCT : Bool) (line : Str) : Bool × Str :=
  if hasPrefixStr line "CREATE TABLE".toList then (true, convertCreateTable rules line)
  else (inCT, line)

/-- The end-of-`CREATE TABLE` handling: on the closing-parenthesis-plus-
terminator line leave create-table mode and run the cleanup. -/
def ctEnd (p : Bool × Str) : Bool × Str :=
  if p.1 && containsStr p.2 ");".toList then (false, cleanupCreateTable p.2) else p

/-- Generic syntax conversion, applied only outside create-table mode. -/
def synConv (p : Bool × Str) : Bool × Str :=
  if p.1 then p else (p.1, convertSyn p.2)

/-- The statement-accumulation tail of the loop body (reached when no COPY or
function handling consumed the line). -/
def stepStmtPart (rules : List (Str × Str)) (execFails : Str → Bool)
    (s : PState) (line : Str) : PState :=
  match synConv (ctEnd (ctStart rules s.inCreateTable line)) with
  | (inCT2, line3) =>
    if line3 = [] then { s with inCreateTable := inCT2 }
    else
      if hasSuffixStr line3 [';'] then
        if shouldSkipStatement (s.currentStatement ++ line3 ++ [' ']) then
          { s with inCreateTable := inCT2, currentStatement := [] }
        else
          { s with inCreateTable := inCT2, currentStatement := [],
                   executed := s.executed ++ [s.currentStatement ++ line3 ++ [' ']],
                   warnings := if execFails (s.currentStatement ++ line3 ++ [' '])
                               then s.warnings ++ [s.currentStatement ++ line3 ++ [' ']]
                               else s.warnings }
      else { s with inCreateTable := inCT2,
                    currentStatement := s.currentStatement ++ line3 ++ [' '] }

/-- One iteration of the scanner loop of `ParseToSQLite` on one raw line.
`rules` is the map-iteration order used by `convertDataTypes`; `execFails`
and `copyFails` are the (logged-only) failure oracles of `db.Exec` and
`insertCopyData`. -/
def step (rules : List (Str × Str)) (execFails : Str → Bool)
    (copyFails : Str → List Str → Bool) (s : PState) (rawLine : Str) : PState :=
  let line := trimSpace rawLine
  if line = [] || hasPrefixStr line "--".toList || hasPrefixStr line "/*".toList then s
  else if containsStr line "CREATE FUNCTION".toList
      || containsStr line "CREATE OR REPLACE FUNCTION".toList then
    { s with inFunction := true }
  else if s.inFunction then
    if containsStr line "$$".toList || containsStr line "LANGUAGE".toList then
      { s with inFunction := false }
    else s
  else if hasPrefixStr line "COPY ".toList && (fields line).length > 1 then
    { s with currentTable := trimPrefixStr ((fields line).getD 1 []) "public.".toList,
             inCopy := true, copyData := [] }
  else if s.inCopy then
    if line = ['\\', '.'] then
      { s with inCopy := false, copyData := [],
               copyBlocks := s.copyBlocks ++ [(s.currentTable, s.copyData)],
               warnings := if copyFails s.currentTable s.copyData
                           then s.warnings ++ [s.currentTable] else s.warnings }
    else { s with copyData := s.copyData ++ [line] }
  else stepStmtPart rules execFails s line

/-- All states reached while processing `lines` from `s` (including `s` and
the final state). -/
def states (rules : List (Str × Str)) (execFails : Str → Bool)
    (copyFails : Str → List Str → Bool) (s : PState) : List Str → List PState
  | [] => [s]
  | l :: ls => s :: states rules execFails copyFails (step rules execFails copyFails s l) ls

/-- The typed errors `ParseToSQLite` can return. -/
inductive ParseErr where
  | createTempFailed : ParseErr
  | connectFailed : ParseErr
  | openFailed : ParseErr
  | scanFailed : ParseErr
deriving DecidableEq

/-- Outcomes of the collaborators of `ParseToSQLite`: `os.CreateTemp`,
`Connect` to the staging SQLite database, `os.Open` on the dump file, the
scanned lines, `scanner.Err`, the `conversions` map order, and the
logged-only SQL-execution oracles. -/
structure ParseEnv where
  tempPath : Option Str
  connectOk : Bool
  openOk : Bool
  lines : List Str
  scanErr : Bool
  ruleOrder : List (Str × Str)
  execFails : Str → Bool
  copyFails : Str → List Str → Bool

/-- Embeds `ParseToSQLite` (the parser's `dbType` field is carried but never
consulted by this method): fatal are only temp-file creation, staging
connection, dump-file open, and scanner I/O failures; the loop's SQL-level
failures are logged and the temp path is returned on success. -/
def ParseToSQLite (env : ParseEnv) (dbType : Str) : Except ParseErr Str :=
  match env.tempPath with
  | none => .error .createTempFailed
  | some path =>
    if env.connectOk = false then .error .connectFailed
    else if env.openOk = false then .error .openFailed
    else
      let _finalState :=
        env.lines.foldl (step env.ruleOrder env.execFails env.copyFails) initialState
      if env.scanErr then .error .scanFailed else .ok path

/-! ## C7: the CREATE TABLE cleanup step -/

/-- C7 (refuting the exactness of the cleanup): `cleanupCreateTable` removes
the last comma of any closing line with a `)` after it, so a defect-free
single-line `CREATE TABLE` with several comma-separated columns, and a
closing line whose last comma lies inside a column list, are both changed
(and mangled), contradicting the claim that only the spurious trailing comma
immediately before the close is removed. -/
theorem cleanup_create_table_mangles_defect_free_lines :
    cleanupCreateTable "CREATE TABLE t (a INT, b INT);".toList
      = "CREATE TABLE t (a INT b INT);".toList
    ∧ cleanupCreateTable "PRIMARY KEY (a, b));".toList
        = "PRIMARY KEY (a b));".toList
    ∧ cleanupCreateTable "CREATE TABLE t (a INT, b INT);".toList
        ≠ "CREATE TABLE t (a INT, b INT);".toList := by
  refine ⟨by decide, by decide, by decide⟩

/-! ## C6: exclusivity of the parse modes -/

/-- A line that triggers the bulk-load directive branch of the loop: after
trimming it starts with `COPY ` and has at least two fields. -/
def copyDirective (rawLine : Str) : Bool :=
  hasPrefixStr (trimSpace rawLine) "COPY ".toList
    && (fields (trimSpace rawLine)).length > 1

/-- No bulk-load directive line is encountered while create-table mode is
active, along the whole run from state `s`. -/
def SafeLines (rules : List (Str × Str)) (execFails : Str → Bool)
    (copyFails : Str → List Str → Bool) : PState → List Str → Bool
  | _, [] => true
  | s, l :: ls =>
    !(s.inCreateTable && copyDirective l)
      && SafeLines rules execFails copyFails (step rules execFails copyFails s l) ls

theorem stepStmtPart_inCopy (rules : List (Str × Str)) (execFails : Str → Bool)
    (s : PState) (line : Str) :
    (stepStmtPart rules execFails s line).inCopy = s.inCopy := by
  unfold stepStmtPart
  rcases hsyn : synConv (ctEnd (ctStart rules s.inCreateTable line)) with ⟨inCT2, line3⟩
  dsimp only
  split_ifs <;> rfl

set_option maxHeartbeats 800000 in
theorem step_preserves_exclusion (rules : List (Str × Str)) (execFails : Str → Bool)
    (copyFails : Str → List Str → Bool) (s : PState) (l : Str)
    (hinv : ¬(s.inCopy = true ∧ s.inCreateTable = true))
    (hsafe : ¬(s.inCreateTable = true
        ∧ (hasPrefixStr (trimSpace l) "COPY ".toList = true
            ∧ 1 < (fields (trimSpace l)).length))) :
    ¬((step rules execFails copyFails s l).inCopy = true
        ∧ (step rules execFails copyFails s l).inCreateTable = true) := by
  unfold step
  split_ifs <;>
    first
      | exact hinv
      | (simp_all [stepStmtPart_inCopy]; done)
      | (simp_all [stepStmtPart_inCopy]
         cases hct : s.inCreateTable <;>
           first
             | rfl
             | exact hct
             | (intro h2
                revert h2
                split_ifs <;> (try simp_all [stepStmtPart_inCopy]) <;> omega))

/-- C6 (refuting the unconditional invariant): a `COPY` directive line that
arrives while a `CREATE TABLE` block is still open switches on bulk-load mode
without leaving create-table mode; afterwards both `inCopy` and
`inCreateTable` hold simultaneously. -/
theorem copy_inside_create_table_breaks_mode_exclusion :
    (step conversions (fun _ => false) (fun _ _ => false)
      (step conversions (fun _ => false) (fun _ _ => false) initialState
        "CREATE TABLE t (".toList)
      "COPY t FROM stdin;".toList).inCopy = true
    ∧ (step conversions (fun _ => false) (fun _ _ => false)
        (step conversions (fun _ => false) (fun _ _ => false) initialState
          "CREATE TABLE t (".toList)
        "COPY t FROM stdin;".toList).inCreateTable = true := by
  refine ⟨by decide, by decide⟩

theorem modes_exclusive_aux (rules : List (Str × Str)) (execFails : Str → Bool)
    (copyFails : Str → List Str → Bool) :
    ∀ (lines : List Str) (s : PState),
      ¬(s.inCopy = true ∧ s.inCreateTable = true) →
      SafeLines rules execFails copyFails s lines = true →
      ∀ t ∈ states rules execFails copyFails s lines,
        ¬(t.inCopy = true ∧ t.inCreateTable = true) := by
  intro lines
  induction lines with
  | nil =>
    intro s hinv _ t ht
    simp only [states, List.mem_singleton] at ht
    exact ht ▸ hinv
  | cons l ls ih =>
    intro s hinv hsafe t ht
    simp only [SafeLines, Bool.and_eq_true, Bool.not_eq_true'] at hsafe
    obtain ⟨h1, h2⟩ := hsafe
    have hsafe' : ¬(s.inCreateTable = true
        ∧ (hasPrefixStr (trimSpace l) "COPY ".toList = true
            ∧ 1 < (fields (trimSpace l)).length)) := by
      intro ⟨ha, hb⟩
      have hcd : copyDirective l = true := by
        unfold copyDirective
        rw [hb.1]
        simp [hb.2]
      rw [ha, hcd] at h1
      simp at h1
    simp only [states, List.mem_cons] at ht
    rcases ht with rfl | ht
    · exact hinv
    · exact ih (step rules execFails copyFails s l)
        (step_preserves_exclusion rules execFails copyFails s l hinv hsafe') h2 t ht

/-- C6 (amended): along every run in which no `COPY` directive line arrives
while create-table mode is active, bulk-load mode and create-table mode are
never simultaneously active in any reachable state. -/
theorem modes_exclusive_without_copy_inside_create_table
    (rules : List (Str × Str)) (execFails : Str → Bool)
    (copyFails : Str → List Str → Bool) (lines : List Str)
    (hsafe : SafeLines rules execFails copyFails initialState lines = true) :
    ∀ t ∈ states rules execFails copyFails initialState lines,
      ¬(t.inCopy = true ∧ t.inCreateTable = true) :=
  modes_exclusive_aux rules execFails copyFails lines initialState
    (by intro h; exact absurd h.1 (by decide)) hsafe

/-- Witness for `modes_exclusive_without_copy_inside_create_table` on a
well-formed dump: a CREATE TABLE block followed by a COPY block. -/
theorem modes_exclusive_witness :
    SafeLines conversions (fun _ => false) (fun _ _ => false) initialState
      ["CREATE TABLE users (".toList, "id integer,".toList, ");".toList,
       "COPY users FROM stdin;".toList, "1".toList, "\\.".toList] = true
    ∧ ∀ t ∈ states conversions (fun _ => false) (fun _ _ => false) initialState
        ["CREATE TABLE users (".toList, "id integer,".toList, ");".toList,
         "COPY users FROM stdin;".toList, "1".toList, "\\.".toList],
        ¬(t.inCopy = true ∧ t.inCreateTable = true) :=
  ⟨by decide,
   modes_exclusive_without_copy_inside_create_table conversions
     (fun _ => false) (fun _ _ => false) _ (by decide)⟩

/-! ## C3: error semantics of `ParseToSQLite` -/

/-- C3 (amended): `ParseToSQLite` returns a typed error exactly when temp-file
creation, the staging connection, the dump-file open, or the scanner fails;
otherwise it returns the staging path; and the result is entirely independent
of the SQL-execution failure oracles (those are logged and skipped). -/
theorem parse_to_sqlite_error_iff (env : ParseEnv) (dbType : Str) :
    ((∃ e, ParseToSQLite env dbType = .error e)
        ↔ (env.tempPath = none ∨ env.connectOk = false ∨ env.openOk = false
            ∨ env.scanErr = true))
    ∧ (∀ path, env.tempPath = some path → env.connectOk = true → env.openOk = true →
        env.scanErr = false → ParseToSQLite env dbType = .ok path)
    ∧ (∀ ef cf, ParseToSQLite env dbType
        = ParseToSQLite { env with execFails := ef, copyFails := cf } dbType) := by
  refine ⟨?_, ?_, ?_⟩
  · unfold ParseToSQLite
    cases htp : env.tempPath with
    | none => simp
    | some path =>
      by_cases hc : env.connectOk = false <;> by_cases ho : env.openOk = false <;>
        by_cases hs : env.scanErr = true <;> simp_all
  · intro path hp hc ho hs
    unfold ParseToSQLite
    rw [hp, hc, ho, hs]
    simp
  · intro ef cf
    unfold ParseToSQLite
    rfl

/-- Witness for `parse_to_sqlite_error_iff`: a fully successful run returns
the staging path. -/
theorem parse_to_sqlite_error_iff_witness :
    (ParseToSQLite
      ⟨some "/tmp/sql_import_1.db".toList, true, true, ["SELECT 1;".toList], false,
       conversions, fun _ => false, fun _ _ => false⟩ "postgres".toList
      = .ok "/tmp/sql_import_1.db".toList) :=
  (parse_to_sqlite_error_iff
    ⟨some "/tmp/sql_import_1.db".toList, true, true, ["SELECT 1;".toList], false,
     conversions, fun _ => false, fun _ _ => false⟩ "postgres".toList).2.1
    "/tmp/sql_import_1.db".toList rfl rfl rfl rfl

/-- C3 (refuting the dialect clause): requesting an unsupported source
dialect is not fatal — `ParseToSQLite` never consults the dialect, so a run
with dialect `oracle` and no I/O failure still succeeds. -/
theorem parse_unsupported_dialect_not_fatal :
    ParseToSQLite
      ⟨some "/tmp/sql_import_2.db".toList, true, true, [], false,
       conversions, fun _ => false, fun _ _ => false⟩ "oracle".toList
      = .ok "/tmp/sql_import_2.db".toList := by
  rfl

/-! ## C8: the statement skip classifier -/

/-- The prefix check of `p` against `a` fails already inside `a` (so it fails
against `a ++ r` for every `r`). -/
def mismatchWithin : Str → Str → Bool
  | _, [] => false
  | [], _ :: _ => false
  | c :: cs, p :: ps => if c = p then mismatchWithin cs ps else true

theorem hasPrefixStr_append_false (a p : Str) (h : mismatchWithin a p = true) :
    ∀ r, hasPrefixStr (a ++ r) p = false := by
  induction a generalizing p with
  | nil => cases p <;> simp [mismatchWithin] at h
  | cons c cs ih =>
    intro r
    cases p with
    | nil => simp [mismatchWithin] at h
    | cons p ps =>
      by_cases hc : c = p
      · simp only [mismatchWithin, hc, if_pos rfl] at h
        simp [hasPrefixStr, hc, ih ps h r]
      · simp [hasPrefixStr, hc]

theorem containsStr_cons (c : Char) (cs p : Str) :
    containsStr (c :: cs) p
      = ((litM p (c :: cs)).isSome || containsStr cs p) := by
  unfold containsStr
  rw [scanFirst]
  cases litM p (c :: cs) <;> simp

theorem seqMatch_false_of_not_contains (p q s : Str)
    (h : containsStr s p = false) : seqMatch p q s = false := by
  induction s with
  | nil =>
    unfold containsStr scanFirst at h
    unfold seqMatch
    cases hl : litM p [] with
    | none => simp [hl]
    | some r => rw [hl] at h; simp at h
  | cons c cs ih =>
    rw [containsStr_cons] at h
    simp only [Bool.or_eq_false_iff] at h
    unfold seqMatch
    cases hl : litM p (c :: cs) with
    | none => simp [hl, ih h.2]
    | some r =>
      have h1 := h.1
      rw [hl] at h1
      simp at h1

/-- C8 (amended): `shouldSkipStatement` returns true exactly on statements
matching one of the code's fourteen patterns — `SET `, `ALTER DATABASE`,
`CREATE DATABASE`, `CREATE SCHEMA`, `CREATE EXTENSION`, `COMMENT ON`,
`GRANT `, `REVOKE ` at line start, `CREATE TRIGGER`, `CREATE RULE`,
`CREATE POLICY`, `SELECT pg_catalog` anywhere, and `ALTER TABLE` followed by
`OWNER TO` or `ADD GENERATED` — and on no others; in particular ordinary
`CREATE TABLE` and `INSERT INTO` statements are never skipped.  (Schema and
extension *alters* are absent from the pattern list.) -/
theorem should_skip_statement_characterization :
    (∀ stmt : Str, shouldSkipStatement stmt = true ↔
      (hasPrefixStr stmt "SET ".toList = true
        ∨ hasPrefixStr stmt "ALTER DATABASE".toList = true
        ∨ hasPrefixStr stmt "CREATE DATABASE".toList = true
        ∨ hasPrefixStr stmt "CREATE SCHEMA".toList = true
        ∨ hasPrefixStr stmt "CREATE EXTENSION".toList = true
        ∨ hasPrefixStr stmt "COMMENT ON".toList = true
        ∨ hasPrefixStr stmt "GRANT ".toList = true
        ∨ hasPrefixStr stmt "REVOKE ".toList = true
        ∨ containsStr stmt "CREATE TRIGGER".toList = true
        ∨ containsStr stmt "CREATE RULE".toList = true
        ∨ containsStr stmt "CREATE POLICY".toList = true
        ∨ containsStr stmt "SELECT pg_catalog".toList = true
        ∨ seqMatch "ALTER TABLE".toList "OWNER TO".toList stmt = true
        ∨ seqMatch "ALTER TABLE".toList "ADD GENERATED".toList stmt = true))
    ∧ (∀ r : Str,
        containsStr ("CREATE TABLE".toList ++ r) "CREATE TRIGGER".toList = false →
        containsStr ("CREATE TABLE".toList ++ r) "CREATE RULE".toList = false →
        containsStr ("CREATE TABLE".toList ++ r) "CREATE POLICY".toList = false →
        containsStr ("CREATE TABLE".toList ++ r) "SELECT pg_catalog".toList = false →
        containsStr ("CREATE TABLE".toList ++ r) "ALTER TABLE".toList = false →
        shouldSkipStatement ("CREATE TABLE".toList ++ r) = false)
    ∧ (∀ r : Str,
        containsStr ("INSERT INTO ".toList ++ r) "CREATE TRIGGER".toList = false →
        containsStr ("INSERT INTO ".toList ++ r) "CREATE RULE".toList = false →
        containsStr ("INSERT INTO ".toList ++ r) "CREATE POLICY".toList = false →
        containsStr ("INSERT INTO ".toList ++ r) "SELECT pg_catalog".toList = false →
        containsStr ("INSERT INTO ".toList ++ r) "ALTER TABLE".toList = false →
        shouldSkipStatement ("INSERT INTO ".toList ++ r) = false) := by
  refine ⟨?_, ?_, ?_⟩
  · intro stmt
    simp [shouldSkipStatement, skipPatterns, matchPat]
  · intro r h1 h2 h3 h4 h5
    simp only [shouldSkipStatement, skipPatterns, matchPat, List.any_cons, List.any_nil,
      Bool.or_eq_false_iff]
    refine ⟨?_, ?_, ?_, ?_, ?_, ?_, ?_, ?_, ?_, ?_, ?_, ?_, ?_, ?_, trivial⟩ <;>
      first
        | exact hasPrefixStr_append_false _ _ (by decide) r
        | assumption
        | exact seqMatch_false_of_not_contains _ _ _ h5
  · intro r h1 h2 h3 h4 h5
    simp only [shouldSkipStatement, skipPatterns, matchPat, List.any_cons, List.any_nil,
      Bool.or_eq_false_iff]
    refine ⟨?_, ?_, ?_, ?_, ?_, ?_, ?_, ?_, ?_, ?_, ?_, ?_, ?_, ?_, trivial⟩ <;>
      first
        | exact hasPrefixStr_append_false _ _ (by decide) r
        | assumption
        | exact seqMatch_false_of_not_contains _ _ _ h5

/-- Witness for `should_skip_statement_characterization`: a plain CREATE
TABLE statement and a plain INSERT statement are not skipped, and a plain
`SET` session statement is skipped. -/
theorem should_skip_statement_witness :
    shouldSkipStatement ("CREATE TABLE".toList ++ " test (id INT); ".toList) = false
    ∧ shouldSkipStatement ("INSERT INTO ".toList ++ "test VALUES (1); ".toList) = false
    ∧ shouldSkipStatement "SET client_encoding = UTF8; ".toList = true :=
  ⟨should_skip_statement_characterization.2.1 " test (id INT); ".toList
     (by decide) (by decide) (by decide) (by decide) (by decide),
   should_skip_statement_characterization.2.2 "test VALUES (1); ".toList
     (by decide) (by decide) (by decide) (by decide) (by decide),
   should_skip_statement_characterization.1 "SET client_encoding = UTF8; ".toList
     |>.mpr (Or.inl (by decide))⟩

/-- C8 (refuting the full category list): an `ALTER SCHEMA` statement falls
in the spec's "database/schema/extension create or alter" skip category, yet
`shouldSkipStatement` has no pattern for it and returns false. -/
theorem alter_schema_not_skipped :
    shouldSkipStatement "ALTER SCHEMA accounting RENAME TO finance;".toList = false := by
  decide

/-! ## C5: machinery for the constraint-rewriter regexes

The three patterns of `convertConstraint` are literal fragments combined with
`\w+` and lazy groups.  The lemmas below let a leftmost scan over a line of
the canonical `ALTER TABLE` shape be decomposed region by region: concrete
regions are dismissed by a decidable all-suffixes-mismatch certificate, and
the table/constraint-name regions (arbitrary space-free words) by the
`wordfreeCert` certificate. -/

theorem litM_eq_some (p : Str) : ∀ s r, litM p s = some r ↔ s = p ++ r := by
  induction p with
  | nil => intro s r; simp [litM]
  | cons p ps ih =>
    intro s r
    cases s with
    | nil => simp [litM]
    | cons c cs =>
      by_cases hc : c = p
      · simp [litM, hc, ih]
      · simp [litM, hc]

theorem litM_self_append (p r : Str) : litM p (p ++ r) = some r :=
  (litM_eq_some p (p ++ r) r).mpr rfl

theorem litM_append_none (t : Str) : ∀ pat b, mismatchWithin t pat = true →
    litM pat (t ++ b) = none := by
  induction t with
  | nil => intro pat b h; cases pat <;> simp [mismatchWithin] at h
  | cons c cs ih =>
    intro pat b h
    cases pat with
    | nil => simp [mismatchWithin] at h
    | cons p ps =>
      by_cases hc : c = p
      · rw [mismatchWithin, if_pos hc] at h
        simp [litM, hc, ih ps b h]
      · simp [litM, hc]

theorem scanFirst_eq_of_tryAt {α : Type} (tryAt : Str → Option α) (s : Str) (r : α)
    (h : tryAt s = some r) : scanFirst tryAt s = some r := by
  cases s with
  | nil => simpa [scanFirst] using h
  | cons c cs => rw [scanFirst, h]

/-- Every non-empty suffix of `a` mismatches `pat` within `a` itself. -/
def allSuffixesMismatch (pat : Str) : Str → Bool
  | [] => true
  | c :: cs => mismatchWithin (c :: cs) pat && allSuffixesMismatch pat cs

theorem scan_skip_concrete {α : Type} (tryAt : Str → Option α) (P : Str)
    (hpre : ∀ s, litM P s = none → tryAt s = none) :
    ∀ a b, allSuffixesMismatch P a = true →
      scanFirst tryAt (a ++ b) = scanFirst tryAt b := by
  intro a
  induction a with
  | nil => intro b _; rfl
  | cons c cs ih =>
    intro b h
    rw [allSuffixesMismatch, Bool.and_eq_true] at h
    have hnone : tryAt (c :: (cs ++ b)) = none :=
      hpre _ (litM_append_none (c :: cs) P b h.1)
    show scanFirst tryAt (c :: (cs ++ b)) = scanFirst tryAt b
    rw [scanFirst, hnone]
    exact ih b h.2

/-- Certificate that the pattern `P` cannot match at any position inside a
non-empty space-free region followed by the concrete text `conHead`:
`P` contains a space, and for every space-free proper prefix length `k` of
`P`, the rest of `P` mismatches `conHead` within `conHead`. -/
def wordfreeCert (P conHead : Str) : Bool :=
  P.any (fun c => c = ' ') &&
  (List.range P.length).all (fun k =>
    if k = 0 then true
    else if (P.take k).all (fun c => !(c = ' ')) then mismatchWithin conHead (P.drop k)
    else true)

theorem litM_wordfree (P u conHead conTail : Str)
    (hu : ∀ c ∈ u, c ≠ ' ') (hne : u ≠ [])
    (hcert : wordfreeCert P conHead = true) :
    litM P (u ++ (conHead ++ conTail)) = none := by
  cases hres : litM P (u ++ (conHead ++ conTail)) with
  | none => rfl
  | some r =>
    exfalso
    have heq : u ++ (conHead ++ conTail) = P ++ r := (litM_eq_some P _ r).mp hres
    rw [wordfreeCert, Bool.and_eq_true] at hcert
    rcases Nat.lt_or_ge u.length P.length with hlt | hge
    · -- the match would have to continue past `u` into `conHead`
      have htake : u = P.take u.length := by
        have h1 : (u ++ (conHead ++ conTail)).take u.length = u := List.take_left u _
        have h2 : (P ++ r).take u.length = P.take u.length := by
          rw [List.take_append_eq_append_take]
          have : u.length - P.length = 0 := by omega
          simp [this]
        rw [heq] at h1
        rw [h2] at h1
        exact h1.symm
      have hdrop : conHead ++ conTail = P.drop u.length ++ r := by
        have h1 : (u ++ (conHead ++ conTail)).drop u.length = conHead ++ conTail :=
          List.drop_left u _
        have h2 : (P ++ r).drop u.length = P.drop u.length ++ r := by
          rw [List.drop_append_eq_append_drop]
          have : u.length - P.length = 0 := by omega
          simp [this]
        rw [heq, h2] at h1
        exact h1.symm
      have hmatch : litM (P.drop u.length) (conHead ++ conTail) = some r :=
        (litM_eq_some _ _ _).mpr hdrop
      have hk := List.all_eq_true.mp hcert.2 u.length (List.mem_range.mpr hlt)
      have hk0 : u.length ≠ 0 := by
        intro h0
        exact hne (List.length_eq_zero.mp h0)
      rw [if_neg hk0] at hk
      have hfree : (P.take u.length).all (fun c => !(c = ' ')) = true := by
        rw [← htake]
        rw [List.all_eq_true]
        intro c hc
        simpa using hu c hc
      rw [if_pos hfree] at hk
      rw [litM_append_none conHead (P.drop u.length) conTail hk] at hmatch
      exact Option.noConfusion hmatch
    · -- `P` would be a prefix of the space-free `u`, but `P` contains a space
      have htake : P = u.take P.length := by
        have h1 : (P ++ r).take P.length = P := List.take_left P r
        have h2 : (u ++ (conHead ++ conTail)).take P.length = u.take P.length := by
          rw [List.take_append_eq_append_take]
          have : P.length - u.length = 0 := by omega
          simp [this]
        rw [← heq] at h1
        rw [h2] at h1
        exact h1.symm
      obtain ⟨c, hcP, hcsp⟩ := List.any_eq_true.mp hcert.1
      have hcu : c ∈ u := by
        have : c ∈ u.take P.length := htake ▸ hcP
        exact List.take_subset _ _ this
      exact hu c hcu (by simpa using hcsp)

theorem scan_skip_wordfree {α : Type} (tryAt : Str → Option α) (P conHead conTail : Str)
    (hpre : ∀ s, litM P s = none → tryAt s = none)
    (hcert : wordfreeCert P conHead = true) :
    ∀ u, (∀ c ∈ u, c ≠ ' ') →
      scanFirst tryAt (u ++ (conHead ++ conTail)) = scanFirst tryAt (conHead ++ conTail) := by
  intro u
  induction u with
  | nil => intro _; rfl
  | cons c cs ih =>
    intro hu
    have hnone : tryAt (c :: (cs ++ (conHead ++ conTail))) = none :=
      hpre _ (litM_wordfree P (c :: cs) conHead conTail hu (by simp) hcert)
    show scanFirst tryAt (c :: (cs ++ (conHead ++ conTail))) = _
    rw [scanFirst, hnone]
    exact ih (fun d hd => hu d (List.mem_cons_of_mem c hd))

theorem takeWhile_append_stop (p : Char → Bool) (d : Char) (vs : Str)
    (hd : p d = false) :
    ∀ u, (∀ c ∈ u, p c = true) →
      (u ++ d :: vs).takeWhile p = u ∧ (u ++ d :: vs).dropWhile p = d :: vs := by
  intro u
  induction u with
  | nil =>
    intro _
    constructor
    · simp [List.takeWhile_cons, hd]
    · simp [List.dropWhile_cons, hd]
  | cons c cs ih =>
    intro hu
    have hc : p c = true := hu c (List.mem_cons_self c cs)
    have hrest := ih (fun d hd => hu d (List.mem_cons_of_mem c hd))
    constructor
    · simp [List.takeWhile_cons, hc, hrest.1]
    · simp [List.dropWhile_cons, hc, hrest.2]

theorem lazyThen_capture {α : Type} (next : Str → Option α) (a : α) :
    ∀ (cols : Str) (rest : Str), (∀ c ∈ cols, c ≠ ')' ∧ c ≠ '\n') →
      next rest = some a →
      lazyThen next (cols ++ ')' :: rest) = some (cols, a) := by
  intro cols
  induction cols with
  | nil =>
    intro rest _ hn
    show lazyThen next (')' :: rest) = some ([], a)
    rw [lazyThen, hn]
    rfl
  | cons c cs ih =>
    intro rest hcols hn
    have hc := hcols c (List.mem_cons_self c cs)
    have hrec := ih rest (fun d hd => hcols d (List.mem_cons_of_mem c hd)) hn
    show lazyThen next (c :: (cs ++ ')' :: rest)) = some (c :: cs, a)
    rw [lazyThen]
    rw [if_neg hc.1]
    rw [if_neg hc.2]
    rw [hrec]

theorem containsStr_of_infix (pat x y : Str) :
    containsStr (x ++ (pat ++ y)) pat = true := by
  induction x with
  | nil =>
    unfold containsStr
    rw [List.nil_append]
    cases hp : pat ++ y with
    | nil =>
      have hpat : pat = [] := by
        cases pat with
        | nil => rfl
        | cons a as => simp at hp
      subst hpat
      simp [scanFirst, litM]
    | cons c cs =>
      rw [scanFirst, ← hp, litM_self_append]
      rfl
  | cons c cs ih =>
    show containsStr (c :: (cs ++ (pat ++ y))) pat = true
    rw [containsStr_cons]
    rw [ih]
    simp

theorem pkTryAt_none (s : Str) (h : litM "ADD CONSTRAINT ".toList s = none) :
    pkTryAt s = none := by
  unfold pkTryAt
  rw [h]

theorem uqTryAt_none (s : Str) (h : litM "ADD CONSTRAINT ".toList s = none) :
    uqTryAt s = none := by
  unfold uqTryAt
  rw [h]

theorem fkTryAt_none (s : Str) (h : litM "FOREIGN KEY (".toList s = none) :
    fkTryAt s = none := by
  unfold fkTryAt
  rw [h]

theorem isEmpty_false_of_ne_nil {l : Str} (h : l ≠ []) : l.isEmpty = false := by
  cases l with
  | nil => exact absurd rfl h
  | cons c cs => rfl

theorem fieldsGo_word (T : Str) :
    ∀ (acc w : Str), (∀ c ∈ T, isSpaceChar c = false) → (acc ≠ [] ∨ T ≠ []) →
      fieldsGo acc (T ++ ' ' :: w) = (acc.reverse ++ T) :: fieldsGo [] w := by
  induction T with
  | nil =>
    intro acc w _ hne
    have hacc : acc ≠ [] := hne.resolve_right (fun h => h rfl)
    show fieldsGo acc (' ' :: w) = (acc.reverse ++ []) :: fieldsGo [] w
    rw [fieldsGo]
    rw [if_pos (by decide)]
    rw [if_neg hacc]
    simp
  | cons c cs ih =>
    intro acc w hT _
    have hc : isSpaceChar c = false := hT c (List.mem_cons_self c cs)
    show fieldsGo acc (c :: (cs ++ ' ' :: w)) = (acc.reverse ++ c :: cs) :: fieldsGo [] w
    rw [fieldsGo]
    rw [if_neg (by simp [hc])]
    rw [ih (c :: acc) w (fun d hd => hT d (List.mem_cons_of_mem c hd)) (Or.inl (by simp))]
    simp

/-- `strings.Fields` on a canonical `ALTER TABLE <T> ...` line: the third
field is the table name. -/
theorem fields_alter_line (T rest2 : Str)
    (hT : ∀ c ∈ T, isSpaceChar c = false) (hTne : T ≠ []) :
    fields ("ALTER TABLE ".toList ++ (T ++ (' ' :: rest2)))
      = "ALTER".toList :: "TABLE".toList :: T :: fields rest2 := by
  have h1 : fields ("ALTER TABLE ".toList ++ (T ++ (' ' :: rest2)))
      = "ALTER".toList :: "TABLE".toList :: fieldsGo [] (T ++ ' ' :: rest2) := rfl
  rw [h1]
  rw [fieldsGo_word T [] rest2 hT (Or.inr hTne)]
  rfl

theorem containsStr_skip_left (pat : Str) : ∀ (a s : Str), containsStr s pat = true →
    containsStr (a ++ s) pat = true := by
  intro a
  induction a with
  | nil => intro s h; exact h
  | cons c cs ih =>
    intro s h
    show containsStr (c :: (cs ++ s)) pat = true
    rw [containsStr_cons, ih s h]
    simp

theorem containsStr_of_litM (s pat r : Str) (h : litM pat s = some r) :
    containsStr s pat = true := by
  unfold containsStr
  rw [scanFirst_eq_of_tryAt _ _ _ h]
  rfl

theorem ne_space_of_wordChar {c : Char} (h : isWordChar c = true) : c ≠ ' ' := by
  intro he
  rw [he] at h
  exact absurd h (by decide)

theorem ne_space_of_not_isSpaceChar {c : Char} (h : isSpaceChar c = false) : c ≠ ' ' := by
  intro he
  rw [he] at h
  exact absurd h (by decide)

theorem pkMatch_canonical (T name cols suffix : Str)
    (hT : ∀ c ∈ T, c ≠ ' ')
    (hname : ∀ c ∈ name, isWordChar c = true) (hnname : name ≠ [])
    (hcols : ∀ c ∈ cols, c ≠ ')' ∧ c ≠ '\n') :
    pkMatch ("ALTER TABLE ".toList ++ (T ++ (" ADD CONSTRAINT ".toList ++ (name
      ++ (" PRIMARY KEY (".toList ++ (cols ++ ')' :: suffix)))))) = some cols := by
  have htw : (name ++ (" PRIMARY KEY (".toList ++ (cols ++ ')' :: suffix))).takeWhile
      isWordChar = name :=
    (takeWhile_append_stop isWordChar ' '
      ("PRIMARY KEY (".toList ++ (cols ++ ')' :: suffix)) (by decide) name hname).1
  have hdw : (name ++ (" PRIMARY KEY (".toList ++ (cols ++ ')' :: suffix))).dropWhile
      isWordChar = " PRIMARY KEY (".toList ++ (cols ++ ')' :: suffix) :=
    (takeWhile_append_stop isWordChar ' '
      ("PRIMARY KEY (".toList ++ (cols ++ ')' :: suffix)) (by decide) name hname).2
  have hlz : lazyThen (fun _ => some ()) (cols ++ ')' :: suffix) = some (cols, ()) :=
    lazyThen_capture (fun _ => some ()) () cols suffix hcols rfl
  have e4 : pkTryAt ("ADD CONSTRAINT ".toList
      ++ (name ++ (" PRIMARY KEY (".toList ++ (cols ++ ')' :: suffix)))) = some cols := by
    unfold pkTryAt
    rw [litM_self_append]
    split
    next heq => simp at heq
    next r1 heq =>
      injection heq with heq1
      subst heq1
      rw [htw, hdw, isEmpty_false_of_ne_nil hnname]
      simp only [Bool.false_eq_true, if_false]
      rw [litM_self_append]
      split
      next heq2 => simp at heq2
      next r2 heq2 =>
        injection heq2 with h2
        subst h2
        rw [hlz]
        rfl
  have e1 : pkMatch ("ALTER TABLE ".toList ++ (T ++ (" ADD CONSTRAINT ".toList ++ (name
      ++ (" PRIMARY KEY (".toList ++ (cols ++ ')' :: suffix))))))
      = scanFirst pkTryAt (T ++ (" ADD CONSTRAINT ".toList
          ++ (name ++ (" PRIMARY KEY (".toList ++ (cols ++ ')' :: suffix))))) :=
    scan_skip_concrete pkTryAt "ADD CONSTRAINT ".toList pkTryAt_none
      "ALTER TABLE ".toList _ (by decide)
  have e2 : scanFirst pkTryAt (T ++ (" ADD CONSTRAINT ".toList
      ++ (name ++ (" PRIMARY KEY (".toList ++ (cols ++ ')' :: suffix)))))
      = scanFirst pkTryAt (" ADD CONSTRAINT ".toList
          ++ (name ++ (" PRIMARY KEY (".toList ++ (cols ++ ')' :: suffix)))) :=
    scan_skip_wordfree pkTryAt "ADD CONSTRAINT ".toList " ADD CONSTRAINT ".toList
      _ pkTryAt_none (by decide) T hT
  have e3 : scanFirst pkTryAt (" ADD CONSTRAINT ".toList
      ++ (name ++ (" PRIMARY KEY (".toList ++ (cols ++ ')' :: suffix))))
      = scanFirst pkTryAt ("ADD CONSTRAINT ".toList
          ++ (name ++ (" PRIMARY KEY (".toList ++ (cols ++ ')' :: suffix)))) :=
    scan_skip_concrete pkTryAt "ADD CONSTRAINT ".toList pkTryAt_none
      [' '] _ (by decide)
  rw [e1, e2, e3]
  exact scanFirst_eq_of_tryAt pkTryAt _ cols e4

theorem uqMatch_canonical (T name cols suffix : Str)
    (hT : ∀ c ∈ T, c ≠ ' ')
    (hname : ∀ c ∈ name, isWordChar c = true) (hnname : name ≠ [])
    (hcols : ∀ c ∈ cols, c ≠ ')' ∧ c ≠ '\n') :
    uqMatch ("ALTER TABLE ".toList ++ (T ++ (" ADD CONSTRAINT ".toList ++ (name
      ++ (" UNIQUE (".toList ++ (cols ++ ')' :: suffix)))))) = some (name, cols) := by
  have htw : (name ++ (" UNIQUE (".toList ++ (cols ++ ')' :: suffix))).takeWhile
      isWordChar = name :=
    (takeWhile_append_stop isWordChar ' '
      ("UNIQUE (".toList ++ (cols ++ ')' :: suffix)) (by decide) name hname).1
  have hdw : (name ++ (" UNIQUE (".toList ++ (cols ++ ')' :: suffix))).dropWhile
      isWordChar = " UNIQUE (".toList ++ (cols ++ ')' :: suffix) :=
    (takeWhile_append_stop isWordChar ' '
      ("UNIQUE (".toList ++ (cols ++ ')' :: suffix)) (by decide) name hname).2
  have hlz : lazyThen (fun _ => some ()) (cols ++ ')' :: suffix) = some (cols, ()) :=
    lazyThen_capture (fun _ => some ()) () cols suffix hcols rfl
  have e4 : uqTryAt ("ADD CONSTRAINT ".toList
      ++ (name ++ (" UNIQUE (".toList ++ (cols ++ ')' :: suffix)))) = some (name, cols) := by
    unfold uqTryAt
    rw [litM_self_append]
    split
    next heq => simp at heq
    next r1 heq =>
      injection heq with heq1
      subst heq1
      rw [htw, hdw, isEmpty_false_of_ne_nil hnname]
      simp only [Bool.false_eq_true, if_false]
      rw [litM_self_append]
      split
      next heq2 => simp at heq2
      next r2 heq2 =>
        injection heq2 with h2
        subst h2
        rw [hlz]
        rfl
  have e1 : uqMatch ("ALTER TABLE ".toList ++ (T ++ (" ADD CONSTRAINT ".toList ++ (name
      ++ (" UNIQUE (".toList ++ (cols ++ ')' :: suffix))))))
      = scanFirst uqTryAt (T ++ (" ADD CONSTRAINT ".toList
          ++ (name ++ (" UNIQUE (".toList ++ (cols ++ ')' :: suffix))))) :=
    scan_skip_concrete uqTryAt "ADD CONSTRAINT ".toList uqTryAt_none
      "ALTER TABLE ".toList _ (by decide)
  have e2 : scanFirst uqTryAt (T ++ (" ADD CONSTRAINT ".toList
      ++ (name ++ (" UNIQUE (".toList ++ (cols ++ ')' :: suffix)))))
      = scanFirst uqTryAt (" ADD CONSTRAINT ".toList
          ++ (name ++ (" UNIQUE (".toList ++ (cols ++ ')' :: suffix)))) :=
    scan_skip_wordfree uqTryAt "ADD CONSTRAINT ".toList " ADD CONSTRAINT ".toList
      _ uqTryAt_none (by decide) T hT
  have e3 : scanFirst uqTryAt (" ADD CONSTRAINT ".toList
      ++ (name ++ (" UNIQUE (".toList ++ (cols ++ ')' :: suffix))))
      = scanFirst uqTryAt ("ADD CONSTRAINT ".toList
          ++ (name ++ (" UNIQUE (".toList ++ (cols ++ ')' :: suffix)))) :=
    scan_skip_concrete uqTryAt "ADD CONSTRAINT ".toList uqTryAt_none
      [' '] _ (by decide)
  rw [e1, e2, e3]
  exact scanFirst_eq_of_tryAt uqTryAt _ (name, cols) e4

theorem fkMatch_canonical (T name cols R rcols suffix : Str)
    (hT : ∀ c ∈ T, c ≠ ' ')
    (hname : ∀ c ∈ name, isWordChar c = true)
    (hcols : ∀ c ∈ cols, c ≠ ')' ∧ c ≠ '\n')
    (hR : ∀ c ∈ R, isWordChar c = true) (hRne : R ≠ [])
    (hrcols : ∀ c ∈ rcols, c ≠ ')' ∧ c ≠ '\n') :
    fkMatch ("ALTER TABLE ".toList ++ (T ++ (" ADD CONSTRAINT ".toList ++ (name
      ++ (" FOREIGN KEY (".toList ++ (cols ++ (") REFERENCES ".toList
        ++ (R ++ ("(".toList ++ (rcols ++ ')' :: suffix))))))))))
      = some (cols, R, rcols) := by
  have hname' : ∀ c ∈ name, c ≠ ' ' := fun c hc => by
    intro he
    have := hname c hc
    rw [he] at this
    exact absurd this (by decide)
  have htwR : (R ++ ("(".toList ++ (rcols ++ ')' :: suffix))).takeWhile isWordChar = R :=
    (takeWhile_append_stop isWordChar '(' (rcols ++ ')' :: suffix) (by decide) R hR).1
  have hdwR : (R ++ ("(".toList ++ (rcols ++ ')' :: suffix))).dropWhile isWordChar
      = '(' :: (rcols ++ ')' :: suffix) :=
    (takeWhile_append_stop isWordChar '(' (rcols ++ ')' :: suffix) (by decide) R hR).2
  have hlzr : lazyThen (fun _ => some ()) (rcols ++ ')' :: suffix) = some (rcols, ()) :=
    lazyThen_capture (fun _ => some ()) () rcols suffix hrcols rfl
  have hinner : (fun r2 =>
      match litM " REFERENCES ".toList r2 with
      | none => none
      | some r3 =>
        if (r3.takeWhile isWordChar).isEmpty then none
        else
          match r3.dropWhile isWordChar with
          | '(' :: r4 =>
            (lazyThen (fun _ => some ()) r4).map
              (fun p => (r3.takeWhile isWordChar, p.1))
          | _ => none)
      (" REFERENCES ".toList ++ (R ++ ("(".toList ++ (rcols ++ ')' :: suffix))))
      = some (R, rcols) := by
    show (match litM " REFERENCES ".toList (" REFERENCES ".toList
        ++ (R ++ ("(".toList ++ (rcols ++ ')' :: suffix)))) with
      | none => none
      | some r3 =>
        if (r3.takeWhile isWordChar).isEmpty then none
        else
          match r3.dropWhile isWordChar with
          | '(' :: r4 =>
            (lazyThen (fun _ => some ()) r4).map
              (fun p => (r3.takeWhile isWordChar, p.1))
          | _ => none) = some (R, rcols)
    rw [litM_self_append]
    split
    next heq => simp at heq
    next r3 heq =>
      injection heq with h3
      subst h3
      rw [htwR, hdwR, isEmpty_false_of_ne_nil hRne]
      simp only [Bool.false_eq_true, if_false]
      rw [hlzr]
      rfl
  have key : ∀ (F : Str → Option (Str × Str)),
      F (" REFERENCES ".toList ++ (R ++ ("(".toList ++ (rcols ++ ')' :: suffix))))
        = some (R, rcols) →
      (lazyThen F (cols ++ (") REFERENCES ".toList
          ++ (R ++ ("(".toList ++ (rcols ++ ')' :: suffix)))))).map (fun p => (p.1, p.2))
        = some (cols, R, rcols) := by
    intro F hF
    show (lazyThen F (cols ++ ')' :: (" REFERENCES ".toList
        ++ (R ++ ("(".toList ++ (rcols ++ ')' :: suffix)))))).map (fun p => (p.1, p.2))
      = some (cols, R, rcols)
    rw [lazyThen_capture F (R, rcols) cols _ hcols hF]
    rfl
  have e4 : fkTryAt ("FOREIGN KEY (".toList
      ++ (cols ++ (") REFERENCES ".toList ++ (R ++ ("(".toList ++ (rcols ++ ')' :: suffix))))))
      = some (cols, R, rcols) := by
    unfold fkTryAt
    rw [litM_self_append]
    split
    next heq => simp at heq
    next r1 heq =>
      injection heq with h1
      subst h1
      exact key _ hinner
  have e1 := scan_skip_concrete fkTryAt "FOREIGN KEY (".toList fkTryAt_none
    "ALTER TABLE ".toList
    (T ++ (" ADD CONSTRAINT ".toList ++ (name ++ (" FOREIGN KEY (".toList
      ++ (cols ++ (") REFERENCES ".toList ++ (R ++ ("(".toList ++ (rcols ++ ')' :: suffix)))))))))
    (by decide)
  have e2 := scan_skip_wordfree fkTryAt "FOREIGN KEY (".toList " ADD CONSTRAINT ".toList
    (name ++ (" FOREIGN KEY (".toList
      ++ (cols ++ (") REFERENCES ".toList ++ (R ++ ("(".toList ++ (rcols ++ ')' :: suffix)))))))
    fkTryAt_none (by decide) T hT
  have e3 := scan_skip_concrete fkTryAt "FOREIGN KEY (".toList fkTryAt_none
    " ADD CONSTRAINT ".toList
    (name ++ (" FOREIGN KEY (".toList
      ++ (cols ++ (") REFERENCES ".toList ++ (R ++ ("(".toList ++ (rcols ++ ')' :: suffix)))))))
    (by decide)
  have e4b := scan_skip_wordfree fkTryAt "FOREIGN KEY (".toList " FOREIGN KEY (".toList
    (cols ++ (") REFERENCES ".toList ++ (R ++ ("(".toList ++ (rcols ++ ')' :: suffix)))))
    fkTryAt_none (by decide) name hname'
  have e5 : scanFirst fkTryAt (" FOREIGN KEY (".toList
      ++ (cols ++ (") REFERENCES ".toList ++ (R ++ ("(".toList ++ (rcols ++ ')' :: suffix))))))
      = scanFirst fkTryAt ("FOREIGN KEY (".toList
          ++ (cols ++ (") REFERENCES ".toList ++ (R ++ ("(".toList ++ (rcols ++ ')' :: suffix)))))) :=
    scan_skip_concrete fkTryAt "FOREIGN KEY (".toList fkTryAt_none
      [' ']
      ("FOREIGN KEY (".toList
        ++ (cols ++ (") REFERENCES ".toList ++ (R ++ ("(".toList ++ (rcols ++ ')' :: suffix))))))
      (by decide)
  show scanFirst fkTryAt _ = some (cols, R, rcols)
  rw [e1, e2, e3, e4b, e5]
  exact scanFirst_eq_of_tryAt fkTryAt _ (cols, R, rcols) e4

theorem convertConstraint_eq_pk (line cols : Str)
    (hc : containsStr line "PRIMARY KEY".toList = true)
    (hpk : pkMatch line = some cols) :
    convertConstraint line = "CREATE UNIQUE INDEX IF NOT EXISTS pk_".toList
      ++ ((fields line).getD 2 []) ++ " ON ".toList ++ ((fields line).getD 2 [])
      ++ " (".toList ++ cols ++ ");".toList := by
  unfold convertConstraint
  rw [hc, hpk]
  rfl

theorem convertConstraint_eq_fk (line cols R rcols : Str)
    (hnpk : containsStr line "PRIMARY KEY".toList = false)
    (hc : containsStr line "FOREIGN KEY".toList = true)
    (hfk : fkMatch line = some (cols, R, rcols)) :
    convertConstraint line = "CREATE INDEX IF NOT EXISTS fk_".toList
      ++ ((fields line).getD 2 []) ++ "_".toList ++ R ++ " ON ".toList
      ++ ((fields line).getD 2 []) ++ " (".toList ++ cols ++ ");".toList := by
  unfold convertConstraint
  rw [hnpk, hc, hfk]
  rfl

theorem convertConstraint_eq_uq (line name cols : Str)
    (hnpk : containsStr line "PRIMARY KEY".toList = false)
    (hnfk : containsStr line "FOREIGN KEY".toList = false)
    (hc : containsStr line "UNIQUE".toList = true)
    (huq : uqMatch line = some (name, cols)) :
    convertConstraint line = "CREATE UNIQUE INDEX IF NOT EXISTS ".toList
      ++ name ++ " ON ".toList ++ ((fields line).getD 2 [])
      ++ " (".toList ++ cols ++ ");".toList := by
  unfold convertConstraint
  rw [hnpk, hnfk, hc, huq]
  rfl

theorem convertConstraint_drop (line : Str)
    (hpk : pkMatch line = none) (hfk : fkMatch line = none) (huq : uqMatch line = none) :
    convertConstraint line = [] := by
  unfold convertConstraint
  rw [hpk, hfk, huq]
  simp only [ite_self]

theorem convertConstraint_pk (T name cols : Str)
    (hT : ∀ c ∈ T, isSpaceChar c = false) (hTne : T ≠ [])
    (hname : ∀ c ∈ name, isWordChar c = true) (hnname : name ≠ [])
    (hcols : ∀ c ∈ cols, c ≠ ')' ∧ c ≠ '\n') :
    convertConstraint ("ALTER TABLE ".toList ++ (T ++ (" ADD CONSTRAINT ".toList ++ (name
      ++ (" PRIMARY KEY (".toList ++ (cols ++ ");".toList))))))
      = "CREATE UNIQUE INDEX IF NOT EXISTS pk_".toList ++ T ++ " ON ".toList
          ++ T ++ " (".toList ++ cols ++ ");".toList := by
  have hT' : ∀ c ∈ T, c ≠ ' ' := fun c hc => ne_space_of_not_isSpaceChar (hT c hc)
  have hpk : pkMatch ("ALTER TABLE ".toList ++ (T ++ (" ADD CONSTRAINT ".toList ++ (name
      ++ (" PRIMARY KEY (".toList ++ (cols ++ ");".toList)))))) = some cols :=
    pkMatch_canonical T name cols [';'] hT' hname hnname hcols
  have hcont : containsStr ("ALTER TABLE ".toList ++ (T ++ (" ADD CONSTRAINT ".toList
      ++ (name ++ (" PRIMARY KEY (".toList ++ (cols ++ ");".toList))))))
      "PRIMARY KEY".toList = true := by
    apply containsStr_skip_left "PRIMARY KEY".toList "ALTER TABLE ".toList
    apply containsStr_skip_left "PRIMARY KEY".toList T
    apply containsStr_skip_left "PRIMARY KEY".toList " ADD CONSTRAINT ".toList
    apply containsStr_skip_left "PRIMARY KEY".toList name
    have : containsStr ([' '] ++ ("PRIMARY KEY (".toList ++ (cols ++ ");".toList)))
        "PRIMARY KEY".toList = true := by
      apply containsStr_skip_left "PRIMARY KEY".toList [' ']
      exact containsStr_of_litM _ _ (" (".toList ++ (cols ++ ");".toList))
        (litM_self_append "PRIMARY KEY".toList (" (".toList ++ (cols ++ ");".toList)))
    exact this
  have hfld : fields ("ALTER TABLE ".toList ++ (T ++ (" ADD CONSTRAINT ".toList
      ++ (name ++ (" PRIMARY KEY (".toList ++ (cols ++ ");".toList))))))
      = "ALTER".toList :: "TABLE".toList :: T
          :: fields ("ADD CONSTRAINT ".toList ++ (name
              ++ (" PRIMARY KEY (".toList ++ (cols ++ ");".toList)))) :=
    fields_alter_line T _ hT hTne
  unfold convertConstraint
  rw [hcont]
  simp only [if_true]
  rw [hpk]
  rw [hfld]
  rfl

theorem convertConstraint_fk (T name cols R rcols : Str)
    (hT : ∀ c ∈ T, isSpaceChar c = false) (hTne : T ≠ [])
    (hname : ∀ c ∈ name, isWordChar c = true)
    (hcols : ∀ c ∈ cols, c ≠ ')' ∧ c ≠ '\n')
    (hR : ∀ c ∈ R, isWordChar c = true) (hRne : R ≠ [])
    (hrcols : ∀ c ∈ rcols, c ≠ ')' ∧ c ≠ '\n')
    (hnpk : containsStr ("ALTER TABLE ".toList ++ (T ++ (" ADD CONSTRAINT ".toList ++ (name
      ++ (" FOREIGN KEY (".toList ++ (cols ++ (") REFERENCES ".toList
        ++ (R ++ ("(".toList ++ (rcols ++ ");".toList))))))))))
      "PRIMARY KEY".toList = false) :
    convertConstraint ("ALTER TABLE ".toList ++ (T ++ (" ADD CONSTRAINT ".toList ++ (name
      ++ (" FOREIGN KEY (".toList ++ (cols ++ (") REFERENCES ".toList
        ++ (R ++ ("(".toList ++ (rcols ++ ");".toList))))))))))
      = "CREATE INDEX IF NOT EXISTS fk_".toList ++ T ++ "_".toList ++ R
          ++ " ON ".toList ++ T ++ " (".toList ++ cols ++ ");".toList := by
  have hT' : ∀ c ∈ T, c ≠ ' ' := fun c hc => ne_space_of_not_isSpaceChar (hT c hc)
  have hfk : fkMatch ("ALTER TABLE ".toList ++ (T ++ (" ADD CONSTRAINT ".toList ++ (name
      ++ (" FOREIGN KEY (".toList ++ (cols ++ (") REFERENCES ".toList
        ++ (R ++ ("(".toList ++ (rcols ++ ");".toList))))))))))
      = some (cols, R, rcols) :=
    fkMatch_canonical T name cols R rcols [';'] hT' hname hcols hR hRne hrcols
  have hcont : containsStr ("ALTER TABLE ".toList ++ (T ++ (" ADD CONSTRAINT ".toList
      ++ (name ++ (" FOREIGN KEY (".toList ++ (cols ++ (") REFERENCES ".toList
        ++ (R ++ ("(".toList ++ (rcols ++ ");".toList))))))))))
      "FOREIGN KEY".toList = true := by
    apply containsStr_skip_left "FOREIGN KEY".toList "ALTER TABLE ".toList
    apply containsStr_skip_left "FOREIGN KEY".toList T
    apply containsStr_skip_left "FOREIGN KEY".toList " ADD CONSTRAINT ".toList
    apply containsStr_skip_left "FOREIGN KEY".toList name
    have : containsStr ([' '] ++ ("FOREIGN KEY (".toList ++ (cols ++ (") REFERENCES ".toList
        ++ (R ++ ("(".toList ++ (rcols ++ ");".toList)))))))
        "FOREIGN KEY".toList = true := by
      apply containsStr_skip_left "FOREIGN KEY".toList [' ']
      exact containsStr_of_litM _ _ (" (".toList ++ (cols ++ (") REFERENCES ".toList
          ++ (R ++ ("(".toList ++ (rcols ++ ");".toList))))))
        (litM_self_append "FOREIGN KEY".toList _)
    exact this
  have hfld : fields ("ALTER TABLE ".toList ++ (T ++ (" ADD CONSTRAINT ".toList
      ++ (name ++ (" FOREIGN KEY (".toList ++ (cols ++ (") REFERENCES ".toList
        ++ (R ++ ("(".toList ++ (rcols ++ ");".toList))))))))))
      = "ALTER".toList :: "TABLE".toList :: T
          :: fields ("ADD CONSTRAINT ".toList ++ (name
              ++ (" FOREIGN KEY (".toList ++ (cols ++ (") REFERENCES ".toList
                ++ (R ++ ("(".toList ++ (rcols ++ ");".toList)))))))) :=
    fields_alter_line T _ hT hTne
  unfold convertConstraint
  rw [hnpk, hcont, hfk, hfld]
  rfl

theorem convertConstraint_uq (T name cols : Str)
    (hT : ∀ c ∈ T, isSpaceChar c = false) (hTne : T ≠ [])
    (hname : ∀ c ∈ name, isWordChar c = true) (hnname : name ≠ [])
    (hcols : ∀ c ∈ cols, c ≠ ')' ∧ c ≠ '\n')
    (hnpk : containsStr ("ALTER TABLE ".toList ++ (T ++ (" ADD CONSTRAINT ".toList ++ (name
      ++ (" UNIQUE (".toList ++ (cols ++ ");".toList)))))) "PRIMARY KEY".toList = false)
    (hnfk : containsStr ("ALTER TABLE ".toList ++ (T ++ (" ADD CONSTRAINT ".toList ++ (name
      ++ (" UNIQUE (".toList ++ (cols ++ ");".toList)))))) "FOREIGN KEY".toList = false) :
    convertConstraint ("ALTER TABLE ".toList ++ (T ++ (" ADD CONSTRAINT ".toList ++ (name
      ++ (" UNIQUE (".toList ++ (cols ++ ");".toList))))))
      = "CREATE UNIQUE INDEX IF NOT EXISTS ".toList ++ name ++ " ON ".toList
          ++ T ++ " (".toList ++ cols ++ ");".toList := by
  have hT' : ∀ c ∈ T, c ≠ ' ' := fun c hc => ne_space_of_not_isSpaceChar (hT c hc)
  have huq : uqMatch ("ALTER TABLE ".toList ++ (T ++ (" ADD CONSTRAINT ".toList ++ (name
      ++ (" UNIQUE (".toList ++ (cols ++ ");".toList)))))) = some (name, cols) :=
    uqMatch_canonical T name cols [';'] hT' hname hnname hcols
  have hcont : containsStr ("ALTER TABLE ".toList ++ (T ++ (" ADD CONSTRAINT ".toList
      ++ (name ++ (" UNIQUE (".toList ++ (cols ++ ");".toList))))))
      "UNIQUE".toList = true := by
    apply containsStr_skip_left "UNIQUE".toList "ALTER TABLE ".toList
    apply containsStr_skip_left "UNIQUE".toList T
    apply containsStr_skip_left "UNIQUE".toList " ADD CONSTRAINT ".toList
    apply containsStr_skip_left "UNIQUE".toList name
    have : containsStr ([' '] ++ ("UNIQUE (".toList ++ (cols ++ ");".toList)))
        "UNIQUE".toList = true := by
      apply containsStr_skip_left "UNIQUE".toList [' ']
      exact containsStr_of_litM _ _ (" (".toList ++ (cols ++ ");".toList))
        (litM_self_append "UNIQUE".toList (" (".toList ++ (cols ++ ");".toList)))
    exact this
  have hfld : fields ("ALTER TABLE ".toList ++ (T ++ (" ADD CONSTRAINT ".toList
      ++ (name ++ (" UNIQUE (".toList ++ (cols ++ ");".toList))))))
      = "ALTER".toList :: "TABLE".toList :: T
          :: fields ("ADD CONSTRAINT ".toList ++ (name
              ++ (" UNIQUE (".toList ++ (cols ++ ");".toList)))) :=
    fields_alter_line T _ hT hTne
  unfold convertConstraint
  rw [hnpk, hnfk, hcont, huq, hfld]
  rfl

/-- C5: the Constraint Rewriter: an `ALTER TABLE T ADD CONSTRAINT name
PRIMARY KEY (cols);` line becomes `CREATE UNIQUE INDEX IF NOT EXISTS pk_T ON
T (cols);`; an `ALTER TABLE T ADD CONSTRAINT name FOREIGN KEY (cols)
REFERENCES R(rcols);` line becomes the non-unique `CREATE INDEX IF NOT
EXISTS fk_T_R ON T (cols);`; an `ALTER TABLE T ADD CONSTRAINT name UNIQUE
(cols);` line becomes a unique index named by the constraint; and a line
matching none of the three regex shapes is dropped (empty string). -/
theorem convert_constraint_three_shapes :
    (∀ T name cols : Str,
      (∀ c ∈ T, isSpaceChar c = false) → T ≠ [] →
      (∀ c ∈ name, isWordChar c = true) → name ≠ [] →
      (∀ c ∈ cols, c ≠ ')' ∧ c ≠ '\n') →
      convertConstraint ("ALTER TABLE ".toList ++ (T ++ (" ADD CONSTRAINT ".toList ++ (name
        ++ (" PRIMARY KEY (".toList ++ (cols ++ ");".toList))))))
        = "CREATE UNIQUE INDEX IF NOT EXISTS pk_".toList ++ T ++ " ON ".toList
            ++ T ++ " (".toList ++ cols ++ ");".toList)
    ∧ (∀ T name cols R rcols : Str,
      (∀ c ∈ T, isSpaceChar c = false) → T ≠ [] →
      (∀ c ∈ name, isWordChar c = true) →
      (∀ c ∈ cols, c ≠ ')' ∧ c ≠ '\n') →
      (∀ c ∈ R, isWordChar c = true) → R ≠ [] →
      (∀ c ∈ rcols, c ≠ ')' ∧ c ≠ '\n') →
      containsStr ("ALTER TABLE ".toList ++ (T ++ (" ADD CONSTRAINT ".toList ++ (name
        ++ (" FOREIGN KEY (".toList ++ (cols ++ (") REFERENCES ".toList
          ++ (R ++ ("(".toList ++ (rcols ++ ");".toList))))))))))
        "PRIMARY KEY".toList = false →
      convertConstraint ("ALTER TABLE ".toList ++ (T ++ (" ADD CONSTRAINT ".toList ++ (name
        ++ (" FOREIGN KEY (".toList ++ (cols ++ (") REFERENCES ".toList
          ++ (R ++ ("(".toList ++ (rcols ++ ");".toList))))))))))
        = "CREATE INDEX IF NOT EXISTS fk_".toList ++ T ++ "_".toList ++ R
            ++ " ON ".toList ++ T ++ " (".toList ++ cols ++ ");".toList)
    ∧ (∀ T name cols : Str,
      (∀ c ∈ T, isSpaceChar c = false) → T ≠ [] →
      (∀ c ∈ name, isWordChar c = true) → name ≠ [] →
      (∀ c ∈ cols, c ≠ ')' ∧ c ≠ '\n') →
      containsStr ("ALTER TABLE ".toList ++ (T ++ (" ADD CONSTRAINT ".toList ++ (name
        ++ (" UNIQUE (".toList ++ (cols ++ ");".toList)))))) "PRIMARY KEY".toList = false →
      containsStr ("ALTER TABLE ".toList ++ (T ++ (" ADD CONSTRAINT ".toList ++ (name
        ++ (" UNIQUE (".toList ++ (cols ++ ");".toList)))))) "FOREIGN KEY".toList = false →
      convertConstraint ("ALTER TABLE ".toList ++ (T ++ (" ADD CONSTRAINT ".toList ++ (name
        ++ (" UNIQUE (".toList ++ (cols ++ ");".toList))))))
        = "CREATE UNIQUE INDEX IF NOT EXISTS ".toList ++ name ++ " ON ".toList
            ++ T ++ " (".toList ++ cols ++ ");".toList)
    ∧ (∀ line : Str, pkMatch line = none → fkMatch line = none → uqMatch line = none →
        convertConstraint line = []) :=
  ⟨fun T name cols h1 h2 h3 h4 h5 => convertConstraint_pk T name cols h1 h2 h3 h4 h5,
   fun T name cols R rcols h1 h2 h3 h4 h5 h6 h7 h8 =>
     convertConstraint_fk T name cols R rcols h1 h2 h3 h4 h5 h6 h7 h8,
   fun T name cols h1 h2 h3 h4 h5 h6 h7 =>
     convertConstraint_uq T name cols h1 h2 h3 h4 h5 h6 h7,
   fun line h1 h2 h3 => convertConstraint_drop line h1 h2 h3⟩

/-- Witness for `convert_constraint_three_shapes`: the spec's own
`ADD CONSTRAINT pk_x PRIMARY KEY (id)` example against table `orders`, a
foreign key, a unique constraint, and a CHECK constraint (dropped). -/
theorem convert_constraint_three_shapes_witness :
    convertConstraint ("ALTER TABLE ".toList ++ ("orders".toList ++ (" ADD CONSTRAINT ".toList
      ++ ("pk_x".toList ++ (" PRIMARY KEY (".toList ++ ("id".toList ++ ");".toList))))))
      = "CREATE UNIQUE INDEX IF NOT EXISTS pk_".toList ++ "orders".toList ++ " ON ".toList
          ++ "orders".toList ++ " (".toList ++ "id".toList ++ ");".toList
    ∧ convertConstraint ("ALTER TABLE ".toList ++ ("orders".toList ++ (" ADD CONSTRAINT ".toList
      ++ ("fk_c".toList ++ (" FOREIGN KEY (".toList ++ ("customer_id".toList
        ++ (") REFERENCES ".toList ++ ("customers".toList ++ ("(".toList
          ++ ("id".toList ++ ");".toList))))))))))
      = "CREATE INDEX IF NOT EXISTS fk_".toList ++ "orders".toList ++ "_".toList
          ++ "customers".toList ++ " ON ".toList ++ "orders".toList ++ " (".toList
          ++ "customer_id".toList ++ ");".toList
    ∧ convertConstraint ("ALTER TABLE ".toList ++ ("users".toList ++ (" ADD CONSTRAINT ".toList
      ++ ("uq_email".toList ++ (" UNIQUE (".toList ++ ("email".toList ++ ");".toList))))))
      = "CREATE UNIQUE INDEX IF NOT EXISTS ".toList ++ "uq_email".toList ++ " ON ".toList
          ++ "users".toList ++ " (".toList ++ "email".toList ++ ");".toList
    ∧ convertConstraint "ALTER TABLE t ADD CONSTRAINT c CHECK (v > 0);".toList = [] :=
  ⟨convert_constraint_three_shapes.1 "orders".toList "pk_x".toList "id".toList
     (by decide) (by decide) (by decide) (by decide) (by decide),
   convert_constraint_three_shapes.2.1 "orders".toList "fk_c".toList "customer_id".toList
     "customers".toList "id".toList (by decide) (by decide) (by decide) (by decide)
     (by decide) (by decide) (by decide) (by decide),
   convert_constraint_three_shapes.2.2.1 "users".toList "uq_email".toList "email".toList
     (by decide) (by decide) (by decide) (by decide) (by decide) (by decide) (by decide),
   convert_constraint_three_shapes.2.2.2 "ALTER TABLE t ADD CONSTRAINT c CHECK (v > 0);".toList
     (by decide) (by decide) (by decide)⟩

end Sql2Csv
